import Mathlib

/-!
Shallow embedding of `src/clients/js-legacy/src/instruction.ts` from the
spl-token-metadata repository: the five instruction builders
(`createInitializeInstruction`, `createUpdateFieldInstruction`,
`createRemoveKeyInstruction`, `createUpdateAuthorityInstruction`,
`createEmitInstruction`) and the codec primitives they compose
(little-endian integers, booleans, u32-length-prefixed UTF-8 strings,
32-byte public keys, optional fields, u32-count-prefixed arrays, and the
tagged-union field codec).  Byte buffers are `List Nat` with every entry
intended to be `< 256`; machine integers are `Nat` with explicit `% 256`
digit extraction.  Fallible encoding (a public key whose byte form is not
exactly 32 bytes) is `Except String`.
-/

namespace SplTokenMetadata

/-- A byte buffer: a list of byte values. -/
abbrev Bytes := List Nat

/-- u8 encoder: one byte, value mod 256. -/
def getU8Encoder (n : Nat) : Bytes := [n % 256]

/-- u16 little-endian encoder. -/
def getU16Encoder (n : Nat) : Bytes := [n % 256, n / 256 % 256]

/-- u32 little-endian encoder. -/
def getU32Encoder (n : Nat) : Bytes :=
  [n % 256, n / 256 % 256, n / 65536 % 256, n / 16777216 % 256]

/-- u64 little-endian encoder. -/
def getU64Encoder (n : Nat) : Bytes :=
  [n % 256, n / 256 % 256, n / 65536 % 256, n / 16777216 % 256,
   n / 4294967296 % 256, n / 1099511627776 % 256,
   n / 281474976710656 % 256, n / 72057594037927936 % 256]

/-- Boolean encoder: a single byte, 1 for true and 0 for false. -/
def getBooleanEncoder (b : Bool) : Bytes := [if b then 1 else 0]

/-- UTF-8 encoding of a single character (the standard 1- to 4-byte scheme). -/
def utf8EncodeCharNat (c : Char) : Bytes :=
  let n := c.toNat
  if n < 128 then [n]
  else if n < 2048 then [192 + n / 64, 128 + n % 64]
  else if n < 65536 then [224 + n / 4096, 128 + n / 64 % 64, 128 + n % 64]
  else [240 + n / 262144, 128 + n / 4096 % 64, 128 + n / 64 % 64, 128 + n % 64]

/-- The UTF-8 byte sequence of a string. -/
def utf8Bytes (s : String) : Bytes := (s.data.map utf8EncodeCharNat).flatten

/-- String encoder: u32 little-endian byte-length prefix followed by the raw
UTF-8 bytes (`addEncoderSizePrefix(getUtf8Encoder(), getU32Encoder())`). -/
def getStringEncoder (s : String) : Bytes :=
  getU32Encoder (utf8Bytes s).length ++ utf8Bytes s

/-- The error raised when a public key cannot be reduced to exactly 32 bytes. -/
def publicKeyLengthError : String := "EncodingError: public key must be exactly 32 bytes"

/-- Public-key encoder: exactly 32 raw bytes, no length prefix; fails when the
key byte form is not exactly 32 bytes. -/
def getPublicKeyEncoder (pk : Bytes) : Except String Bytes :=
  if pk.length = 32 then Except.ok pk
  else Except.error publicKeyLengthError

/-- The well-known all-zero system-program sentinel public key. -/
def systemProgramId : Bytes := List.replicate 32 0

/-- Optional-field encoder for an infallible value encoder: one presence-flag
byte (0 absent, 1 present) followed by the value bytes when present. -/
def getOptionEncoder (enc : α → Bytes) : Option α → Bytes
  | none => [0]
  | some v => 1 :: enc v

/-- Optional-field encoder for a fallible value encoder. -/
def optionEncoderE (enc : α → Except String Bytes) : Option α → Except String Bytes
  | none => Except.ok [0]
  | some v => (enc v).map (fun b => 1 :: b)

/-- Sequentially encode every item of a list and concatenate the results,
propagating the first failure. -/
def exceptCat (enc : α → Except String Bytes) : List α → Except String Bytes
  | [] => Except.ok []
  | x :: xs => do
    let b ← enc x
    let rest ← exceptCat enc xs
    pure (b ++ rest)

/-- Array encoder (fallible items): u32 little-endian element-count prefix
followed by the concatenated item encodings. -/
def arrayEncoderE (enc : α → Except String Bytes) (xs : List α) : Except String Bytes :=
  (exceptCat enc xs).map (fun body => getU32Encoder xs.length ++ body)

/-- Instruction framing: discriminator bytes followed by the struct payload
(`transformEncoder(getTupleEncoder([getBytesEncoder(), dataEncoder]), ...)`). -/
def getInstructionEncoder (discriminator : Bytes) (payload : Bytes) : Bytes :=
  discriminator ++ payload

/-- One entry of an instruction account list. -/
structure AccountMeta where
  pubkey : Bytes
  isSigner : Bool
  isWritable : Bool
deriving DecidableEq

/-- The result of an instruction builder: program id, ordered account list,
and the encoded data buffer. -/
structure TransactionInstruction where
  programId : Bytes
  keys : List AccountMeta
  data : Bytes
deriving DecidableEq

/-- Creator record: 32-byte address, verified flag, u8 share. -/
structure Creator where
  address : Bytes
  verified : Bool
  share : Nat
deriving DecidableEq

/-- Collection record: 32-byte key and verified flag. -/
structure Collection where
  key : Bytes
  verified : Bool
deriving DecidableEq

/-- Uses record: u8 use method, u64 remaining, u64 total. -/
structure Uses where
  use_method : Nat
  remaining : Nat
  total : Nat
deriving DecidableEq

/-- Struct encoder for one creator: address (32 bytes), verified (bool),
share (u8). -/
def creatorEncoder (c : Creator) : Except String Bytes :=
  (getPublicKeyEncoder c.address).map
    (fun a => a ++ getBooleanEncoder c.verified ++ getU8Encoder c.share)

/-- Struct encoder for a collection: key (32 bytes), verified (bool). -/
def collectionEncoder (c : Collection) : Except String Bytes :=
  (getPublicKeyEncoder c.key).map (fun k => k ++ getBooleanEncoder c.verified)

/-- Struct encoder for uses: use method (u8), remaining (u64), total (u64). -/
def usesEncoder (u : Uses) : Bytes :=
  getU8Encoder u.use_method ++ getU64Encoder u.remaining ++ getU64Encoder u.total

/-- Arguments of `createInitializeInstruction`.  A TS optional parameter is an
outer `Option` (`none` = omitted); a nullable parameter value is the inner
`Option` (`none` = null). -/
structure InitializeInstructionArgs where
  metadata : Bytes
  mint : Bytes
  mintAuthority : Bytes
  name : String
  programId : Bytes
  symbol : String
  updateAuthority : Bytes
  uri : String
  creators : Option (List Creator) := none
  sellerFeeBasisPoints : Option Nat := none
  collection : Option (Option Collection) := none
  uses : Option (Option Uses) := none
deriving DecidableEq

/-- Literal 8-byte discriminator of the Initialize instruction. -/
def initializeDiscriminator : Bytes := [210, 225, 30, 162, 88, 184, 77, 141]

/-- The Initialize struct payload: name, symbol, uri (strings),
seller_fee_basis_points (u16), creators (optional array), collection
(optional struct), uses (optional struct), in declared order. -/
def initializeDataEncoder (name symbol uri : String) (sellerFeeBasisPoints : Nat)
    (creators : Option (List Creator)) (collection : Option Collection)
    (uses : Option Uses) : Except String Bytes := do
  let creatorsBytes ← optionEncoderE (arrayEncoderE creatorEncoder) creators
  let collectionBytes ← optionEncoderE collectionEncoder collection
  pure (getStringEncoder name ++ getStringEncoder symbol ++ getStringEncoder uri ++
    getU16Encoder sellerFeeBasisPoints ++ creatorsBytes ++ collectionBytes ++
    getOptionEncoder usesEncoder uses)

/-- `createInitializeInstruction`: defaults absent creators to `[]`, absent
seller fee to `0`, absent collection/uses to null; account list is metadata
(writable), updateAuthority, mint, mintAuthority (signer), then a
signer/readonly entry per verified creator, then the verified collection key;
data is the discriminator plus the struct payload, with a nonempty creators
list encoded as present and an empty one normalized to absent. -/
def createInitializeInstruction (args : InitializeInstructionArgs) :
    Except String TransactionInstruction :=
  let creators := args.creators.getD []
  let collection := args.collection.getD none
  let creatorSigners := (creators.filter fun c => c.verified).map fun c =>
    ({ isSigner := true, isWritable := false, pubkey := c.address } : AccountMeta)
  let collectionSigners := match collection with
    | some col =>
      if col.verified then
        [({ isSigner := true, isWritable := false, pubkey := col.key } : AccountMeta)]
      else []
    | none => []
  (initializeDataEncoder args.name args.symbol args.uri
      (args.sellerFeeBasisPoints.getD 0)
      (if creators.length > 0 then some creators else none)
      collection (args.uses.getD none)).map fun payload =>
    { programId := args.programId
      keys := [
        { isSigner := false, isWritable := true, pubkey := args.metadata },
        { isSigner := false, isWritable := false, pubkey := args.updateAuthority },
        { isSigner := false, isWritable := false, pubkey := args.mint },
        { isSigner := true, isWritable := false, pubkey := args.mintAuthority }
      ] ++ creatorSigners ++ collectionSigners
      data := getInstructionEncoder initializeDiscriminator payload }

/-- Modelled from the spec: the well-known Field variants of the metadata
interface (the `Field` enumeration of `field.ts`, which is not present under
`src/`); the spec describes Field as "either a well-known variant or an
arbitrary string key" targeting a metadata slot (name, symbol, uri). -/
inductive Field where
  | Name
  | Symbol
  | Uri
deriving DecidableEq

/-- Modelled from the spec: the tagged union actually encoded on the wire for
a field update — a well-known variant or the arbitrary-string-key variant. -/
inductive FieldConfig where
  | Name
  | Symbol
  | Uri
  | Key (key : String)
deriving DecidableEq

/-- Modelled from the spec: `getFieldConfig` of `field.ts` (not present under
`src/`) maps a well-known `Field` variant to its own tagged-union variant and
a plain string to the arbitrary-string-key variant. -/
def getFieldConfig : Sum Field String → FieldConfig
  | Sum.inl Field.Name => FieldConfig.Name
  | Sum.inl Field.Symbol => FieldConfig.Symbol
  | Sum.inl Field.Uri => FieldConfig.Uri
  | Sum.inr s => FieldConfig.Key s

/-- Modelled from the spec: the data-enum ("tagged union") codec for Field —
a one-byte discriminant index for the union tag followed by that variant's
payload (the well-known variants carry no payload; the string-key variant
carries the length-prefixed string). -/
def fieldEncoder : FieldConfig → Bytes
  | FieldConfig.Name => [0]
  | FieldConfig.Symbol => [1]
  | FieldConfig.Uri => [2]
  | FieldConfig.Key s => 3 :: getStringEncoder s

/-- Arguments of `createUpdateFieldInstruction`; `field` is a well-known
variant or a plain string. -/
structure UpdateFieldInstruction where
  programId : Bytes
  metadata : Bytes
  updateAuthority : Bytes
  field : Sum Field String
  value : String
deriving DecidableEq

/-- Literal 8-byte discriminator of the UpdateField instruction. -/
def updateFieldDiscriminator : Bytes := [221, 233, 49, 45, 181, 202, 220, 200]

/-- `createUpdateFieldInstruction`: metadata (writable) and updateAuthority
(signer); data is the discriminator plus field (tagged union, via
`getFieldConfig`) and value (string). -/
def createUpdateFieldInstruction (args : UpdateFieldInstruction) :
    TransactionInstruction :=
  { programId := args.programId
    keys := [
      { isSigner := false, isWritable := true, pubkey := args.metadata },
      { isSigner := true, isWritable := false, pubkey := args.updateAuthority }]
    data := getInstructionEncoder updateFieldDiscriminator
      (fieldEncoder (getFieldConfig args.field) ++ getStringEncoder args.value) }

/-- Arguments of `createRemoveKeyInstruction`. -/
structure RemoveKeyInstructionArgs where
  programId : Bytes
  metadata : Bytes
  updateAuthority : Bytes
  key : String
  idempotent : Bool
deriving DecidableEq

/-- Literal 8-byte discriminator of the RemoveKey instruction. -/
def removeKeyDiscriminator : Bytes := [234, 18, 32, 56, 89, 141, 37, 181]

/-- `createRemoveKeyInstruction`: metadata (writable) and updateAuthority
(signer); data is the discriminator plus idempotent (bool) and key (string). -/
def createRemoveKeyInstruction (args : RemoveKeyInstructionArgs) :
    TransactionInstruction :=
  { programId := args.programId
    keys := [
      { isSigner := false, isWritable := true, pubkey := args.metadata },
      { isSigner := true, isWritable := false, pubkey := args.updateAuthority }]
    data := getInstructionEncoder removeKeyDiscriminator
      (getBooleanEncoder args.idempotent ++ getStringEncoder args.key) }

/-- Arguments of `createUpdateAuthorityInstruction`; `newAuthority` is
nullable. -/
structure UpdateAuthorityInstructionArgs where
  programId : Bytes
  metadata : Bytes
  oldAuthority : Bytes
  newAuthority : Option Bytes
deriving DecidableEq

/-- Literal 8-byte discriminator of the UpdateAuthority instruction. -/
def updateAuthorityDiscriminator : Bytes := [215, 228, 166, 228, 84, 100, 86, 123]

/-- `createUpdateAuthorityInstruction`: metadata (writable) and oldAuthority
(signer); data is the discriminator plus the new authority's 32 raw key bytes,
with a null new authority replaced by the system-program sentinel key
(`newAuthority ?? SystemProgram.programId`). -/
def createUpdateAuthorityInstruction (args : UpdateAuthorityInstructionArgs) :
    Except String TransactionInstruction :=
  (getPublicKeyEncoder (args.newAuthority.getD systemProgramId)).map fun keyBytes =>
    { programId := args.programId
      keys := [
        { isSigner := false, isWritable := true, pubkey := args.metadata },
        { isSigner := true, isWritable := false, pubkey := args.oldAuthority }]
      data := getInstructionEncoder updateAuthorityDiscriminator keyBytes }

/-- Arguments of `createEmitInstruction`; `start` and `endRange` (named `end`
in the source, a reserved word here) are optional u64 offsets. -/
structure EmitInstructionArgs where
  programId : Bytes
  metadata : Bytes
  start : Option Nat := none
  endRange : Option Nat := none
deriving DecidableEq

/-- Literal 8-byte discriminator of the Emit instruction. -/
def emitDiscriminator : Bytes := [250, 166, 180, 250, 13, 12, 184, 70]

/-- `createEmitInstruction`: metadata (readonly, non-signer); data is the
discriminator plus start and end, each an independently optional u64. -/
def createEmitInstruction (args : EmitInstructionArgs) : TransactionInstruction :=
  { programId := args.programId
    keys := [{ isSigner := false, isWritable := false, pubkey := args.metadata }]
    data := getInstructionEncoder emitDiscriminator
      (getOptionEncoder getU64Encoder args.start ++
       getOptionEncoder getU64Encoder args.endRange) }

/-! Inverse struct layouts: decoders consuming a prefix of a byte buffer and
returning the decoded value and the remaining bytes. -/

/-- Read exactly `n` bytes from the front of a buffer. -/
def readN (n : Nat) (b : Bytes) : Option (Bytes × Bytes) :=
  if n ≤ b.length then some (b.take n, b.drop n) else none

/-- Little-endian value of a byte list. -/
def leValue : Bytes → Nat
  | [] => 0
  | d :: rest => d + 256 * leValue rest

/-- Decode a `k`-byte little-endian unsigned integer. -/
def decodeUInt (k : Nat) (b : Bytes) : Option (Nat × Bytes) :=
  (readN k b).map (fun p => (leValue p.1, p.2))

/-- Decode one boolean byte. -/
def decodeBool : Bytes → Option (Bool × Bytes)
  | 0 :: r => some (false, r)
  | 1 :: r => some (true, r)
  | _ => none

/-- Decode one UTF-8 encoded character. -/
def decodeUtf8Char : Bytes → Option (Char × Bytes)
  | [] => none
  | b0 :: r =>
    if b0 < 128 then some (Char.ofNat b0, r)
    else if b0 < 224 then
      match r with
      | b1 :: r1 =>
        if 192 ≤ b0 ∧ 128 ≤ b1 ∧ b1 < 192 then
          some (Char.ofNat ((b0 - 192) * 64 + (b1 - 128)), r1)
        else none
      | _ => none
    else if b0 < 240 then
      match r with
      | b1 :: b2 :: r2 =>
        if 128 ≤ b1 ∧ b1 < 192 ∧ 128 ≤ b2 ∧ b2 < 192 then
          some (Char.ofNat ((b0 - 224) * 4096 + (b1 - 128) * 64 + (b2 - 128)), r2)
        else none
      | _ => none
    else
      match r with
      | b1 :: b2 :: b3 :: r3 =>
        if b0 < 248 ∧ 128 ≤ b1 ∧ b1 < 192 ∧ 128 ≤ b2 ∧ b2 < 192 ∧ 128 ≤ b3 ∧ b3 < 192 then
          some (Char.ofNat
            ((b0 - 240) * 262144 + (b1 - 128) * 4096 + (b2 - 128) * 64 + (b3 - 128)), r3)
        else none
      | _ => none

/-- Decode a whole buffer as a UTF-8 character sequence (fuel-bounded). -/
def decodeUtf8List : Nat → Bytes → Option (List Char)
  | _, [] => some []
  | 0, _ :: _ => none
  | fuel + 1, b => do
    let (c, r) ← decodeUtf8Char b
    let cs ← decodeUtf8List fuel r
    pure (c :: cs)

/-- Decode a u32-length-prefixed UTF-8 string. -/
def decodeString (b : Bytes) : Option (String × Bytes) := do
  let (len, r) ← decodeUInt 4 b
  let (sb, r2) ← readN len r
  let cs ← decodeUtf8List len sb
  pure (String.mk cs, r2)

/-- Decode an optional field: presence byte, then the value when present. -/
def decodeOption (d : Bytes → Option (α × Bytes)) : Bytes → Option (Option α × Bytes)
  | 0 :: r => some (none, r)
  | 1 :: r => do
    let (v, r2) ← d r
    pure (some v, r2)
  | _ => none

/-- Decode exactly `n` consecutive items. -/
def decodeListN (d : Bytes → Option (α × Bytes)) : Nat → Bytes → Option (List α × Bytes)
  | 0, b => some ([], b)
  | n + 1, b => do
    let (v, r) ← d b
    let (vs, r2) ← decodeListN d n r
    pure (v :: vs, r2)

/-- Decode a u32-count-prefixed array. -/
def decodeArray (d : Bytes → Option (α × Bytes)) (b : Bytes) :
    Option (List α × Bytes) := do
  let (n, r) ← decodeUInt 4 b
  decodeListN d n r

/-- Decode a 32-byte public key. -/
def decodePublicKey (b : Bytes) : Option (Bytes × Bytes) := readN 32 b

/-- Decode one creator struct. -/
def decodeCreator (b : Bytes) : Option (Creator × Bytes) := do
  let (a, r) ← decodePublicKey b
  let (v, r2) ← decodeBool r
  let (s, r3) ← decodeUInt 1 r2
  pure ({ address := a, verified := v, share := s }, r3)

/-- Decode one collection struct. -/
def decodeCollection (b : Bytes) : Option (Collection × Bytes) := do
  let (k, r) ← decodePublicKey b
  let (v, r2) ← decodeBool r
  pure ({ key := k, verified := v }, r2)

/-- Decode one uses struct. -/
def decodeUses (b : Bytes) : Option (Uses × Bytes) := do
  let (m, r) ← decodeUInt 1 b
  let (rem, r2) ← decodeUInt 8 r
  let (tot, r3) ← decodeUInt 8 r2
  pure ({ use_method := m, remaining := rem, total := tot }, r3)

/-- Decode the tagged-union field: one discriminant byte then the payload. -/
def decodeField : Bytes → Option (FieldConfig × Bytes)
  | 0 :: r => some (FieldConfig.Name, r)
  | 1 :: r => some (FieldConfig.Symbol, r)
  | 2 :: r => some (FieldConfig.Uri, r)
  | 3 :: r => do
    let (s, r2) ← decodeString r
    pure (FieldConfig.Key s, r2)
  | _ => none

/-- Check the 8-byte discriminator, then decode the payload, requiring full
consumption of the buffer. -/
def decodeInstructionData (discriminator : Bytes) (d : Bytes → Option (α × Bytes))
    (b : Bytes) : Option α :=
  if b.take 8 = discriminator then
    match d (b.drop 8) with
    | some (v, []) => some v
    | _ => none
  else none

/-- The decoded Initialize payload fields, in declared order. -/
structure InitializeData where
  name : String
  symbol : String
  uri : String
  sellerFeeBasisPoints : Nat
  creators : Option (List Creator)
  collection : Option Collection
  uses : Option Uses
deriving DecidableEq

/-- Inverse of the Initialize struct layout. -/
def decodeInitializeData (b : Bytes) : Option (InitializeData × Bytes) := do
  let (name, r1) ← decodeString b
  let (symbol, r2) ← decodeString r1
  let (uri, r3) ← decodeString r2
  let (fee, r4) ← decodeUInt 2 r3
  let (creators, r5) ← decodeOption (decodeArray decodeCreator) r4
  let (collection, r6) ← decodeOption decodeCollection r5
  let (uses, r7) ← decodeOption decodeUses r6
  pure ({ name := name, symbol := symbol, uri := uri, sellerFeeBasisPoints := fee,
          creators := creators, collection := collection, uses := uses }, r7)

/-- Inverse of the UpdateField struct layout. -/
def decodeUpdateFieldData (b : Bytes) : Option ((FieldConfig × String) × Bytes) := do
  let (f, r) ← decodeField b
  let (v, r2) ← decodeString r
  pure ((f, v), r2)

/-- Inverse of the RemoveKey struct layout. -/
def decodeRemoveKeyData (b : Bytes) : Option ((Bool × String) × Bytes) := do
  let (i, r) ← decodeBool b
  let (k, r2) ← decodeString r
  pure ((i, k), r2)

/-- Inverse of the UpdateAuthority struct layout. -/
def decodeUpdateAuthorityData (b : Bytes) : Option (Bytes × Bytes) :=
  decodePublicKey b

/-- Inverse of the Emit struct layout. -/
def decodeEmitData (b : Bytes) : Option ((Option Nat × Option Nat) × Bytes) := do
  let (s, r) ← decodeOption (decodeUInt 8) b
  let (e, r2) ← decodeOption (decodeUInt 8) r
  pure ((s, e), r2)

/-! Round-trip lemmas: each decoder inverts the corresponding encoder on
well-formed values, leaving the rest of the buffer untouched. -/

theorem char_toNat_lt (c : Char) : c.toNat < 1114112 := by
  rcases c.valid with h | ⟨_, h2⟩
  · exact Nat.lt_trans h (by norm_num)
  · exact h2

theorem readN_append (l r : Bytes) : readN l.length (l ++ r) = some (l, r) := by
  simp [readN]

theorem decodeUInt_getU8 (n : Nat) (r : Bytes) (h : n < 256) :
    decodeUInt 1 (getU8Encoder n ++ r) = some (n, r) := by
  simp [decodeUInt, getU8Encoder, readN, leValue]
  omega

theorem decodeUInt_getU16 (n : Nat) (r : Bytes) (h : n < 65536) :
    decodeUInt 2 (getU16Encoder n ++ r) = some (n, r) := by
  simp [decodeUInt, getU16Encoder, readN, leValue]
  omega

theorem decodeUInt_getU32 (n : Nat) (r : Bytes) (h : n < 4294967296) :
    decodeUInt 4 (getU32Encoder n ++ r) = some (n, r) := by
  simp [decodeUInt, getU32Encoder, readN, leValue]
  omega

theorem decodeUInt_getU64 (n : Nat) (r : Bytes) (h : n < 18446744073709551616) :
    decodeUInt 8 (getU64Encoder n ++ r) = some (n, r) := by
  simp [decodeUInt, getU64Encoder, readN, leValue]
  omega

theorem decodeBool_encode (b : Bool) (r : Bytes) :
    decodeBool (getBooleanEncoder b ++ r) = some (b, r) := by
  cases b <;> simp [getBooleanEncoder, decodeBool]

theorem decodeUtf8Char_encode (c : Char) (r : Bytes) :
    decodeUtf8Char (utf8EncodeCharNat c ++ r) = some (c, r) := by
  have hlt := char_toNat_lt c
  have hofNat := Char.ofNat_toNat c
  unfold utf8EncodeCharNat
  by_cases h1 : c.toNat < 128
  · simp only [h1, if_true, List.cons_append, List.nil_append]
    unfold decodeUtf8Char
    simp [h1, hofNat]
  · by_cases h2 : c.toNat < 2048
    · simp only [h1, h2, if_false, if_true, List.cons_append, List.nil_append]
      unfold decodeUtf8Char
      have e1 : ¬ (192 + c.toNat / 64 < 128) := by omega
      have e2 : 192 + c.toNat / 64 < 224 := by omega
      simp only [e1, if_false, e2, if_true]
      have e3 : 192 ≤ 192 + c.toNat / 64 ∧ 128 ≤ 128 + c.toNat % 64 ∧
          128 + c.toNat % 64 < 192 := by omega
      simp only [e3, and_self, if_true]
      have e4 : (192 + c.toNat / 64 - 192) * 64 + (128 + c.toNat % 64 - 128) = c.toNat := by
        omega
      rw [e4, hofNat]
    · by_cases h3 : c.toNat < 65536
      · simp only [h1, h2, h3, if_false, if_true, List.cons_append, List.nil_append]
        unfold decodeUtf8Char
        have e1 : ¬ (224 + c.toNat / 4096 < 128) := by omega
        have e2 : ¬ (224 + c.toNat / 4096 < 224) := by omega
        have e2b : 224 + c.toNat / 4096 < 240 := by omega
        simp only [e1, e2, e2b, if_false, if_true]
        have e3 : 128 ≤ 128 + c.toNat / 64 % 64 ∧ 128 + c.toNat / 64 % 64 < 192 ∧
            128 ≤ 128 + c.toNat % 64 ∧ 128 + c.toNat % 64 < 192 := by omega
        simp only [e3, and_self, if_true]
        have e4 : (224 + c.toNat / 4096 - 224) * 4096 + (128 + c.toNat / 64 % 64 - 128) * 64 +
            (128 + c.toNat % 64 - 128) = c.toNat := by omega
        rw [e4, hofNat]
      · simp only [h1, h2, h3, if_false, List.cons_append, List.nil_append]
        unfold decodeUtf8Char
        have e1 : ¬ (240 + c.toNat / 262144 < 128) := by omega
        have e2 : ¬ (240 + c.toNat / 262144 < 224) := by omega
        have e2b : ¬ (240 + c.toNat / 262144 < 240) := by omega
        simp only [e1, e2, e2b, if_false]
        have e3 : 240 + c.toNat / 262144 < 248 ∧ 128 ≤ 128 + c.toNat / 4096 % 64 ∧
            128 + c.toNat / 4096 % 64 < 192 ∧ 128 ≤ 128 + c.toNat / 64 % 64 ∧
            128 + c.toNat / 64 % 64 < 192 ∧ 128 ≤ 128 + c.toNat % 64 ∧
            128 + c.toNat % 64 < 192 := by omega
        simp only [e3, and_self, if_true]
        have e4 : (240 + c.toNat / 262144 - 240) * 262144 +
            (128 + c.toNat / 4096 % 64 - 128) * 4096 +
            (128 + c.toNat / 64 % 64 - 128) * 64 + (128 + c.toNat % 64 - 128) = c.toNat := by
          omega
        rw [e4, hofNat]

theorem utf8EncodeCharNat_length_pos (c : Char) : 0 < (utf8EncodeCharNat c).length := by
  simp only [utf8EncodeCharNat]
  split_ifs <;> simp

theorem decodeUtf8List_succ_cons (f x : Nat) (xs : Bytes) :
    decodeUtf8List (f + 1) (x :: xs) = (do
      let (c, r) ← decodeUtf8Char (x :: xs)
      let cs ← decodeUtf8List f r
      pure (c :: cs)) := by
  rfl

theorem decodeUtf8List_encode (cs : List Char) (fuel : Nat)
    (h : ((cs.map utf8EncodeCharNat).flatten).length ≤ fuel) :
    decodeUtf8List fuel ((cs.map utf8EncodeCharNat).flatten) = some cs := by
  induction cs generalizing fuel with
  | nil => cases fuel <;> simp [decodeUtf8List]
  | cons c cs ih =>
    have hpos := utf8EncodeCharNat_length_pos c
    simp only [List.map_cons, List.flatten_cons] at h ⊢
    cases fuel with
    | zero =>
      exfalso
      simp only [List.length_append, Nat.le_zero] at h
      omega
    | succ f =>
      cases hcase : utf8EncodeCharNat c with
      | nil => rw [hcase] at hpos; simp at hpos
      | cons x xs =>
        rw [List.cons_append, decodeUtf8List_succ_cons,
          ← List.cons_append, ← hcase, decodeUtf8Char_encode]
        have hrest : ((cs.map utf8EncodeCharNat).flatten).length ≤ f := by
          rw [hcase] at h
          simp only [List.length_append, List.length_cons] at h
          omega
        simp [ih _ hrest]

theorem decodeString_encode (s : String) (r : Bytes)
    (h : (utf8Bytes s).length < 4294967296) :
    decodeString (getStringEncoder s ++ r) = some (s, r) := by
  unfold decodeString getStringEncoder
  rw [List.append_assoc, decodeUInt_getU32 _ _ h]
  simp only [Option.bind_eq_bind, Option.some_bind]
  rw [readN_append]
  simp only [Option.some_bind]
  rw [show utf8Bytes s = (s.data.map utf8EncodeCharNat).flatten from rfl,
    decodeUtf8List_encode s.data _ (Nat.le_refl _)]
  simp only [Option.some_bind]
  cases s
  rfl

/-- Well-formed creator: a 32-byte address and a u8 share. -/
abbrev creatorWF (c : Creator) : Prop := c.address.length = 32 ∧ c.share < 256

/-- Well-formed collection: a 32-byte key. -/
abbrev collectionWF (c : Collection) : Prop := c.key.length = 32

/-- Well-formed uses: u8 use method and u64 remaining/total. -/
abbrev usesWF (u : Uses) : Prop :=
  u.use_method < 256 ∧ u.remaining < 18446744073709551616 ∧ u.total < 18446744073709551616

theorem except_bind_ok (x : α) (f : α → Except String β) :
    (Except.ok x >>= f : Except String β) = f x := rfl

theorem except_bind_error (e : String) (f : α → Except String β) :
    (Except.error e >>= f : Except String β) = Except.error e := rfl

theorem except_map_ok (f : α → β) (x : α) :
    Except.map f (Except.ok x : Except String α) = Except.ok (f x) := rfl

theorem except_map_error (f : α → β) (e : String) :
    Except.map f (Except.error e : Except String α) = Except.error e := rfl

theorem except_pure_eq (x : α) : (pure x : Except String α) = Except.ok x := rfl

theorem creatorEncoder_ok (c : Creator) (h : c.address.length = 32) :
    creatorEncoder c =
      Except.ok (c.address ++ (getBooleanEncoder c.verified ++ getU8Encoder c.share)) := by
  unfold creatorEncoder getPublicKeyEncoder
  rw [if_pos h, except_map_ok, List.append_assoc]

theorem decodeCreator_encode (c : Creator) (r : Bytes)
    (h1 : c.address.length = 32) (h2 : c.share < 256) :
    decodeCreator (c.address ++ (getBooleanEncoder c.verified ++ (getU8Encoder c.share ++ r))) =
      some (c, r) := by
  obtain ⟨a, v, s⟩ := c
  simp only at h1 h2
  unfold decodeCreator decodePublicKey
  rw [← h1, readN_append]
  simp only [Option.bind_eq_bind, Option.some_bind]
  rw [decodeBool_encode]
  simp only [Option.some_bind]
  rw [decodeUInt_getU8 _ _ h2]
  rfl

theorem collectionEncoder_ok (c : Collection) (h : c.key.length = 32) :
    collectionEncoder c = Except.ok (c.key ++ getBooleanEncoder c.verified) := by
  unfold collectionEncoder getPublicKeyEncoder
  rw [if_pos h, except_map_ok]

theorem decodeCollection_encode (c : Collection) (r : Bytes) (h : c.key.length = 32) :
    decodeCollection (c.key ++ (getBooleanEncoder c.verified ++ r)) = some (c, r) := by
  obtain ⟨k, v⟩ := c
  simp only at h
  unfold decodeCollection decodePublicKey
  rw [← h, readN_append]
  simp only [Option.bind_eq_bind, Option.some_bind]
  rw [decodeBool_encode]
  rfl

theorem decodeUses_encode (u : Uses) (r : Bytes) (h : usesWF u) :
    decodeUses (usesEncoder u ++ r) = some (u, r) := by
  obtain ⟨m, rem, tot⟩ := u
  obtain ⟨hm, hrem, htot⟩ := h
  simp only at hm hrem htot
  unfold decodeUses usesEncoder
  simp only [List.append_assoc]
  rw [decodeUInt_getU8 _ _ hm]
  simp only [Option.bind_eq_bind, Option.some_bind]
  rw [decodeUInt_getU64 _ _ hrem]
  simp only [Option.some_bind]
  rw [decodeUInt_getU64 _ _ htot]
  rfl

theorem decodeOption_none (d : Bytes → Option (α × Bytes)) (r : Bytes) :
    decodeOption d (getOptionEncoder enc none ++ r) = some (none, r) := by
  simp [getOptionEncoder, decodeOption]

theorem decodeOption_some (d : Bytes → Option (α × Bytes)) (enc : α → Bytes)
    (v : α) (r : Bytes) (hd : d (enc v ++ r) = some (v, r)) :
    decodeOption d (getOptionEncoder enc (some v) ++ r) = some (some v, r) := by
  simp only [getOptionEncoder, List.cons_append, decodeOption, Option.bind_eq_bind]
  rw [hd]
  rfl

theorem decodeOption_optionEncoderE (enc : α → Except String Bytes)
    (d : Bytes → Option (α × Bytes)) (o : Option α) (b r : Bytes)
    (hb : optionEncoderE enc o = Except.ok b)
    (hd : ∀ v bv, o = some v → enc v = Except.ok bv → d (bv ++ r) = some (v, r)) :
    decodeOption d (b ++ r) = some (o, r) := by
  cases o with
  | none =>
    simp only [optionEncoderE, Except.ok.injEq] at hb
    subst hb
    simp [decodeOption]
  | some v =>
    simp only [optionEncoderE] at hb
    cases henc : enc v with
    | error e => rw [henc, except_map_error] at hb; cases hb
    | ok bv =>
      rw [henc, except_map_ok] at hb
      simp only [Except.ok.injEq] at hb
      subst hb
      simp only [List.cons_append, decodeOption, Option.bind_eq_bind]
      rw [hd v bv rfl henc]
      rfl

theorem decodeListN_exceptCat (cs : List Creator) (b r : Bytes)
    (h : ∀ c ∈ cs, creatorWF c)
    (hb : exceptCat creatorEncoder cs = Except.ok b) :
    decodeListN decodeCreator cs.length (b ++ r) = some (cs, r) := by
  induction cs generalizing b with
  | nil =>
    simp only [exceptCat, Except.ok.injEq] at hb
    subst hb
    simp [decodeListN]
  | cons c cs ih =>
    have hc := h c (List.mem_cons_self c cs)
    simp only [exceptCat] at hb
    rw [creatorEncoder_ok c hc.1] at hb
    rw [except_bind_ok] at hb
    cases hrest : exceptCat creatorEncoder cs with
    | error e =>
      rw [hrest, except_bind_error] at hb
      cases hb
    | ok rest =>
      rw [hrest, except_bind_ok, except_pure_eq] at hb
      simp only [Except.ok.injEq] at hb
      subst hb
      simp only [List.length_cons, decodeListN, List.append_assoc, Option.bind_eq_bind]
      rw [decodeCreator_encode c _ hc.1 hc.2]
      simp only [Option.some_bind]
      rw [ih rest (fun x hx => h x (List.mem_cons_of_mem c hx)) hrest]
      rfl

theorem decodeArray_arrayEncoderE (cs : List Creator) (b r : Bytes)
    (h : ∀ c ∈ cs, creatorWF c) (hlen : cs.length < 4294967296)
    (hb : arrayEncoderE creatorEncoder cs = Except.ok b) :
    decodeArray decodeCreator (b ++ r) = some (cs, r) := by
  cases hcat : exceptCat creatorEncoder cs with
  | error e =>
    rw [arrayEncoderE, hcat, except_map_error] at hb
    cases hb
  | ok body =>
    rw [arrayEncoderE, hcat, except_map_ok] at hb
    simp only [Except.ok.injEq] at hb
    subst hb
    unfold decodeArray
    rw [List.append_assoc, decodeUInt_getU32 _ _ hlen]
    simp only [Option.bind_eq_bind, Option.some_bind]
    exact decodeListN_exceptCat cs body r h hcat

theorem decodeInstructionData_encode (disc p : Bytes) (v : α)
    (d : Bytes → Option (α × Bytes)) (hd : disc.length = 8)
    (hp : d p = some (v, [])) :
    decodeInstructionData disc d (getInstructionEncoder disc p) = some v := by
  unfold decodeInstructionData getInstructionEncoder
  have h1 : (disc ++ p).take 8 = disc := by rw [← hd]; simp
  have h2 : (disc ++ p).drop 8 = p := by rw [← hd]; simp
  rw [h1, h2, if_pos rfl, hp]

theorem decodeRemoveKeyData_encode (i : Bool) (k : String) (r : Bytes)
    (h : (utf8Bytes k).length < 4294967296) :
    decodeRemoveKeyData (getBooleanEncoder i ++ (getStringEncoder k ++ r)) =
      some ((i, k), r) := by
  unfold decodeRemoveKeyData
  rw [decodeBool_encode]
  simp only [Option.bind_eq_bind, Option.some_bind]
  rw [decodeString_encode _ _ h]
  rfl

theorem decodeField_encode (f : FieldConfig) (r : Bytes)
    (hf : ∀ s, f = FieldConfig.Key s → (utf8Bytes s).length < 4294967296) :
    decodeField (fieldEncoder f ++ r) = some (f, r) := by
  cases f with
  | Name => rfl
  | Symbol => rfl
  | Uri => rfl
  | Key s =>
    simp only [fieldEncoder, List.cons_append, List.append_assoc, decodeField,
      Option.bind_eq_bind]
    rw [decodeString_encode _ _ (hf s rfl)]
    rfl

theorem decodeUpdateFieldData_encode (f : FieldConfig) (v : String) (r : Bytes)
    (hf : ∀ s, f = FieldConfig.Key s → (utf8Bytes s).length < 4294967296)
    (hv : (utf8Bytes v).length < 4294967296) :
    decodeUpdateFieldData (fieldEncoder f ++ (getStringEncoder v ++ r)) =
      some ((f, v), r) := by
  unfold decodeUpdateFieldData
  rw [decodeField_encode f _ hf]
  simp only [Option.bind_eq_bind, Option.some_bind]
  rw [decodeString_encode _ _ hv]
  rfl

theorem decodeOption_u64 (o : Option Nat) (r : Bytes)
    (h : ∀ v, o = some v → v < 18446744073709551616) :
    decodeOption (decodeUInt 8) (getOptionEncoder getU64Encoder o ++ r) =
      some (o, r) := by
  cases o with
  | none => exact decodeOption_none _ _
  | some v => exact decodeOption_some _ _ _ _ (decodeUInt_getU64 v r (h v rfl))

theorem decodeEmitData_encode (s e : Option Nat) (r : Bytes)
    (hs : ∀ v, s = some v → v < 18446744073709551616)
    (he : ∀ v, e = some v → v < 18446744073709551616) :
    decodeEmitData
      (getOptionEncoder getU64Encoder s ++ (getOptionEncoder getU64Encoder e ++ r)) =
      some ((s, e), r) := by
  unfold decodeEmitData
  rw [decodeOption_u64 s _ hs]
  simp only [Option.bind_eq_bind, Option.some_bind]
  rw [decodeOption_u64 e _ he]
  rfl

theorem decodeCollection_fromEncoder (col : Collection) (bcol r : Bytes)
    (hwf : collectionWF col) (hb : collectionEncoder col = Except.ok bcol) :
    decodeCollection (bcol ++ r) = some (col, r) := by
  rw [collectionEncoder_ok col hwf] at hb
  have heq := Except.ok.inj hb
  subst heq
  rw [List.append_assoc]
  exact decodeCollection_encode col r hwf

theorem decodeOption_uses (uses : Option Uses) (r : Bytes)
    (h : ∀ u, uses = some u → usesWF u) :
    decodeOption decodeUses (getOptionEncoder usesEncoder uses ++ r) =
      some (uses, r) := by
  cases uses with
  | none => exact decodeOption_none _ _
  | some u => exact decodeOption_some _ _ _ _ (decodeUses_encode u r (h u rfl))

theorem decodeInitializeData_encode (name symbol uri : String) (fee : Nat)
    (creators : Option (List Creator)) (collection : Option Collection)
    (uses : Option Uses) (b r : Bytes)
    (hn : (utf8Bytes name).length < 4294967296)
    (hsy : (utf8Bytes symbol).length < 4294967296)
    (hur : (utf8Bytes uri).length < 4294967296)
    (hfee : fee < 65536)
    (hcr : ∀ cs, creators = some cs →
      (∀ c ∈ cs, creatorWF c) ∧ cs.length < 4294967296)
    (hcol : ∀ col, collection = some col → collectionWF col)
    (hus : ∀ u, uses = some u → usesWF u)
    (hb : initializeDataEncoder name symbol uri fee creators collection uses =
      Except.ok b) :
    decodeInitializeData (b ++ r) =
      some (⟨name, symbol, uri, fee, creators, collection, uses⟩, r) := by
  unfold initializeDataEncoder at hb
  cases hcrb : optionEncoderE (arrayEncoderE creatorEncoder) creators with
  | error e => rw [hcrb, except_bind_error] at hb; cases hb
  | ok cb =>
    rw [hcrb, except_bind_ok] at hb
    cases hcolb : optionEncoderE collectionEncoder collection with
    | error e => rw [hcolb, except_bind_error] at hb; cases hb
    | ok colb =>
      rw [hcolb, except_bind_ok, except_pure_eq] at hb
      have heq := Except.ok.inj hb
      subst heq
      unfold decodeInitializeData
      simp only [List.append_assoc]
      rw [decodeString_encode _ _ hn]
      simp only [Option.bind_eq_bind, Option.some_bind]
      rw [decodeString_encode _ _ hsy]
      simp only [Option.some_bind]
      rw [decodeString_encode _ _ hur]
      simp only [Option.some_bind]
      rw [decodeUInt_getU16 _ _ hfee]
      simp only [Option.some_bind]
      rw [decodeOption_optionEncoderE _ _ _ _ _ hcrb
        (fun cs bcs hcs hbcs => decodeArray_arrayEncoderE cs bcs _
          (hcr cs hcs).1 (hcr cs hcs).2 hbcs)]
      simp only [Option.some_bind]
      rw [decodeOption_optionEncoderE _ _ _ _ _ hcolb
        (fun col bcol hc hbc => decodeCollection_fromEncoder col bcol _
          (hcol col hc) hbc)]
      simp only [Option.some_bind]
      rw [decodeOption_uses _ _ hus]
      rfl

/-! Claim theorems. -/

/-- C5: `createRemoveKeyInstruction` with key "my-key" and idempotent true
produces the RemoveKey discriminator followed by exactly [1] (boolean true),
[6,0,0,0] (u32 little-endian UTF-8 byte length of "my-key"), then the six
UTF-8 bytes of "my-key". -/
theorem claim_C5_remove_key_example (p m a : Bytes) :
    (createRemoveKeyInstruction
      { programId := p, metadata := m, updateAuthority := a,
        key := "my-key", idempotent := true }).data =
      removeKeyDiscriminator ++
        ([1] ++ ([6, 0, 0, 0] ++ [109, 121, 45, 107, 101, 121])) := by
  show getInstructionEncoder removeKeyDiscriminator
      (getBooleanEncoder true ++ getStringEncoder "my-key") =
    removeKeyDiscriminator ++ ([1] ++ ([6, 0, 0, 0] ++ [109, 121, 45, 107, 101, 121]))
  decide

/-- C6: `createEmitInstruction` with start = 5 and end absent produces, after
the Emit discriminator, exactly [1, 5,0,0,0,0,0,0,0, 0]; and in general start
and end are each independently encoded with their own one-byte presence
flag. -/
theorem claim_C6_emit_optionals (p m : Bytes) (args : EmitInstructionArgs) :
    (createEmitInstruction
      { programId := p, metadata := m, start := some 5, endRange := none
        }).data.drop 8 = [1, 5, 0, 0, 0, 0, 0, 0, 0, 0] ∧
    (createEmitInstruction args).data =
      emitDiscriminator ++
        (getOptionEncoder getU64Encoder args.start ++
         getOptionEncoder getU64Encoder args.endRange) := by
  refine ⟨?_, rfl⟩
  show (getInstructionEncoder emitDiscriminator
      (getOptionEncoder getU64Encoder (some 5) ++
       getOptionEncoder getU64Encoder none)).drop 8 =
    [1, 5, 0, 0, 0, 0, 0, 0, 0, 0]
  decide

/-- C10: `createUpdateFieldInstruction` accepts the field either as a Field
variant or as a plain string; a plain string is converted by `getFieldConfig`
into the arbitrary-string-key variant of the tagged union before encoding, so
for every string s the produced bytes equal those of the Key-variant field. -/
theorem claim_C10_string_becomes_key_variant (p m a : Bytes) (s v : String) :
    getFieldConfig (Sum.inr s) = FieldConfig.Key s ∧
    (createUpdateFieldInstruction
      { programId := p, metadata := m, updateAuthority := a,
        field := Sum.inr s, value := v }).data =
      getInstructionEncoder updateFieldDiscriminator
        (fieldEncoder (FieldConfig.Key s) ++ getStringEncoder v) := by
  exact ⟨rfl, rfl⟩

theorem discriminator_take (disc p : Bytes) (h : disc.length = 8) :
    (getInstructionEncoder disc p).take 8 = disc := by
  unfold getInstructionEncoder
  rw [← h]
  simp

theorem discriminator_drop (disc p : Bytes) (h : disc.length = 8) :
    (getInstructionEncoder disc p).drop 8 = p := by
  unfold getInstructionEncoder
  rw [← h]
  simp

/-- C1: for every instruction builder and every argument record, the first 8
bytes of the produced data buffer equal that instruction's literal 8-byte
discriminator constant, and the remaining bytes are exactly the struct
encoding of the payload fields. -/
theorem claim_C1_discriminator_framing
    (ia : InitializeInstructionArgs) (ii : TransactionInstruction) (ipayload : Bytes)
    (hienc : initializeDataEncoder ia.name ia.symbol ia.uri
      (ia.sellerFeeBasisPoints.getD 0)
      (if (ia.creators.getD []).length > 0 then some (ia.creators.getD []) else none)
      (ia.collection.getD none) (ia.uses.getD none) = Except.ok ipayload)
    (hii : createInitializeInstruction ia = Except.ok ii)
    (ua : UpdateAuthorityInstructionArgs) (ui : TransactionInstruction) (ukey : Bytes)
    (huenc : getPublicKeyEncoder (ua.newAuthority.getD systemProgramId) =
      Except.ok ukey)
    (hui : createUpdateAuthorityInstruction ua = Except.ok ui)
    (fa : UpdateFieldInstruction) (ra : RemoveKeyInstructionArgs)
    (ea : EmitInstructionArgs) :
    (ii.data.take 8 = initializeDiscriminator ∧ ii.data.drop 8 = ipayload) ∧
    ((createUpdateFieldInstruction fa).data.take 8 = updateFieldDiscriminator ∧
     (createUpdateFieldInstruction fa).data.drop 8 =
       fieldEncoder (getFieldConfig fa.field) ++ getStringEncoder fa.value) ∧
    ((createRemoveKeyInstruction ra).data.take 8 = removeKeyDiscriminator ∧
     (createRemoveKeyInstruction ra).data.drop 8 =
       getBooleanEncoder ra.idempotent ++ getStringEncoder ra.key) ∧
    (ui.data.take 8 = updateAuthorityDiscriminator ∧ ui.data.drop 8 = ukey) ∧
    ((createEmitInstruction ea).data.take 8 = emitDiscriminator ∧
     (createEmitInstruction ea).data.drop 8 =
       getOptionEncoder getU64Encoder ea.start ++
       getOptionEncoder getU64Encoder ea.endRange) := by
  refine ⟨?_, ?_, ?_, ?_, ?_⟩
  · simp only [createInitializeInstruction] at hii
    rw [hienc, except_map_ok] at hii
    have h := Except.ok.inj hii
    subst h
    exact ⟨discriminator_take _ _ rfl, discriminator_drop _ _ rfl⟩
  · exact ⟨discriminator_take _ _ rfl, discriminator_drop _ _ rfl⟩
  · exact ⟨discriminator_take _ _ rfl, discriminator_drop _ _ rfl⟩
  · simp only [createUpdateAuthorityInstruction] at hui
    rw [huenc, except_map_ok] at hui
    have h := Except.ok.inj hui
    subst h
    exact ⟨discriminator_take _ _ rfl, discriminator_drop _ _ rfl⟩
  · exact ⟨discriminator_take _ _ rfl, discriminator_drop _ _ rfl⟩

/-- C3: the Initialize account list is, in order: metadata (writable,
non-signer), updateAuthority, mint, mintAuthority (signer), then one
signer/readonly entry per creator with verified = true in list order, then a
signer/readonly entry for a verified collection key; unverified creators and
an unverified collection contribute no entry. -/
theorem claim_C3_initialize_account_list (args : InitializeInstructionArgs)
    (i : TransactionInstruction)
    (hi : createInitializeInstruction args = Except.ok i) :
    i.keys =
      [{ isSigner := false, isWritable := true, pubkey := args.metadata },
       { isSigner := false, isWritable := false, pubkey := args.updateAuthority },
       { isSigner := false, isWritable := false, pubkey := args.mint },
       { isSigner := true, isWritable := false, pubkey := args.mintAuthority }] ++
      ((args.creators.getD []).filter fun c => c.verified).map (fun c =>
        ({ isSigner := true, isWritable := false, pubkey := c.address } :
          AccountMeta)) ++
      (match args.collection.getD none with
       | some col =>
         if col.verified then
           [({ isSigner := true, isWritable := false, pubkey := col.key } :
             AccountMeta)]
         else []
       | none => []) := by
  simp only [createInitializeInstruction] at hi
  cases henc : initializeDataEncoder args.name args.symbol args.uri
      (args.sellerFeeBasisPoints.getD 0)
      (if (args.creators.getD []).length > 0 then some (args.creators.getD []) else none)
      (args.collection.getD none) (args.uses.getD none) with
  | error e => rw [henc, except_map_error] at hi; cases hi
  | ok payload =>
    rw [henc, except_map_ok] at hi
    have h := Except.ok.inj hi
    subst h
    rfl

/-- C2: Initialize with creators equal to the empty list produces an
instruction byte-identical to creators absent; the creators field is encoded
as the optional-absent flag, a single 0 byte, never as a present zero-length
array. -/
theorem claim_C2_empty_creators_normalized (args : InitializeInstructionArgs)
    (i : TransactionInstruction) (cb : Bytes)
    (hcol : optionEncoderE collectionEncoder (args.collection.getD none) =
      Except.ok cb)
    (hi : createInitializeInstruction { args with creators := some [] } =
      Except.ok i) :
    createInitializeInstruction { args with creators := some [] } =
      createInitializeInstruction { args with creators := none } ∧
    optionEncoderE (arrayEncoderE creatorEncoder) none = Except.ok [0] ∧
    i.data = getInstructionEncoder initializeDiscriminator
      (getStringEncoder args.name ++ getStringEncoder args.symbol ++
       getStringEncoder args.uri ++
       getU16Encoder (args.sellerFeeBasisPoints.getD 0) ++ [0] ++ cb ++
       getOptionEncoder usesEncoder (args.uses.getD none)) := by
  have hpay : initializeDataEncoder args.name args.symbol args.uri
      (args.sellerFeeBasisPoints.getD 0) none (args.collection.getD none)
      (args.uses.getD none) = Except.ok
      (getStringEncoder args.name ++ getStringEncoder args.symbol ++
       getStringEncoder args.uri ++
       getU16Encoder (args.sellerFeeBasisPoints.getD 0) ++ [0] ++ cb ++
       getOptionEncoder usesEncoder (args.uses.getD none)) := by
    unfold initializeDataEncoder
    rw [show optionEncoderE (arrayEncoderE creatorEncoder)
        (none : Option (List Creator)) = Except.ok [0] from rfl,
      except_bind_ok, hcol, except_bind_ok, except_pure_eq]
  refine ⟨rfl, rfl, ?_⟩
  simp only [createInitializeInstruction, Option.getD_some, List.length_nil,
    gt_iff_lt, lt_self_iff_false, if_false] at hi
  rw [hpay] at hi
  rw [except_map_ok] at hi
  have h := Except.ok.inj hi
  subst h
  rfl

/-- C4: UpdateAuthority with newAuthority absent encodes, after the
discriminator, exactly the 32 raw bytes of the all-zero system sentinel key
with no presence flag; a supplied newAuthority is encoded as its own 32 raw
key bytes. -/
theorem claim_C4_update_authority_sentinel
    (ua1 : UpdateAuthorityInstructionArgs) (i1 : TransactionInstruction)
    (h1none : ua1.newAuthority = none)
    (hi1 : createUpdateAuthorityInstruction ua1 = Except.ok i1)
    (ua2 : UpdateAuthorityInstructionArgs) (i2 : TransactionInstruction)
    (pk : Bytes) (h2some : ua2.newAuthority = some pk) (hpk : pk.length = 32)
    (hi2 : createUpdateAuthorityInstruction ua2 = Except.ok i2) :
    systemProgramId = List.replicate 32 0 ∧ systemProgramId.length = 32 ∧
    i1.data = getInstructionEncoder updateAuthorityDiscriminator systemProgramId ∧
    i1.data.drop 8 = systemProgramId ∧
    i2.data = getInstructionEncoder updateAuthorityDiscriminator pk ∧
    i2.data.drop 8 = pk := by
  refine ⟨rfl, by simp [systemProgramId], ?_, ?_, ?_, ?_⟩
  · simp only [createUpdateAuthorityInstruction, h1none, Option.getD_none] at hi1
    rw [show getPublicKeyEncoder systemProgramId = Except.ok systemProgramId from
        by unfold getPublicKeyEncoder; rw [if_pos (by simp [systemProgramId])],
      except_map_ok] at hi1
    have h := Except.ok.inj hi1
    subst h
    rfl
  · simp only [createUpdateAuthorityInstruction, h1none, Option.getD_none] at hi1
    rw [show getPublicKeyEncoder systemProgramId = Except.ok systemProgramId from
        by unfold getPublicKeyEncoder; rw [if_pos (by simp [systemProgramId])],
      except_map_ok] at hi1
    have h := Except.ok.inj hi1
    subst h
    exact discriminator_drop _ _ rfl
  · simp only [createUpdateAuthorityInstruction, h2some, Option.getD_some] at hi2
    rw [show getPublicKeyEncoder pk = Except.ok pk from
        by unfold getPublicKeyEncoder; rw [if_pos hpk], except_map_ok] at hi2
    have h := Except.ok.inj hi2
    subst h
    rfl
  · simp only [createUpdateAuthorityInstruction, h2some, Option.getD_some] at hi2
    rw [show getPublicKeyEncoder pk = Except.ok pk from
        by unfold getPublicKeyEncoder; rw [if_pos hpk], except_map_ok] at hi2
    have h := Except.ok.inj hi2
    subst h
    exact discriminator_drop _ _ rfl

theorem getFieldConfig_key_inv (f : Sum Field String) (s : String)
    (h : getFieldConfig f = FieldConfig.Key s) : f = Sum.inr s := by
  cases f with
  | inl v => cases v <;> simp [getFieldConfig] at h
  | inr t =>
    simp only [getFieldConfig, FieldConfig.Key.injEq] at h
    rw [h]

/-- C7: for every instruction, decoding the produced byte buffer with the
inverse of that instruction's declared struct layout reproduces the encoded
field values exactly; in particular every optional field round-trips, absent
to absent and present(v) to present(v) with v unchanged. -/
theorem claim_C7_roundtrip
    (name symbol uri : String) (fee : Nat) (creators : Option (List Creator))
    (collection : Option Collection) (uses : Option Uses) (b : Bytes)
    (hn : (utf8Bytes name).length < 4294967296)
    (hsy : (utf8Bytes symbol).length < 4294967296)
    (hur : (utf8Bytes uri).length < 4294967296)
    (hfee : fee < 65536)
    (hcrw : ∀ cs, creators = some cs →
      (∀ c ∈ cs, creatorWF c) ∧ cs.length < 4294967296)
    (hcolw : ∀ col, collection = some col → collectionWF col)
    (husw : ∀ u, uses = some u → usesWF u)
    (hb : initializeDataEncoder name symbol uri fee creators collection uses =
      Except.ok b)
    (fa : UpdateFieldInstruction)
    (hfk : ∀ s, fa.field = Sum.inr s → (utf8Bytes s).length < 4294967296)
    (hfv : (utf8Bytes fa.value).length < 4294967296)
    (ra : RemoveKeyInstructionArgs)
    (hrk : (utf8Bytes ra.key).length < 4294967296)
    (ua : UpdateAuthorityInstructionArgs) (ui : TransactionInstruction)
    (hua32 : (ua.newAuthority.getD systemProgramId).length = 32)
    (hui : createUpdateAuthorityInstruction ua = Except.ok ui)
    (ea : EmitInstructionArgs)
    (hes : ∀ v, ea.start = some v → v < 18446744073709551616)
    (hee : ∀ v, ea.endRange = some v → v < 18446744073709551616) :
    decodeInstructionData initializeDiscriminator decodeInitializeData
        (getInstructionEncoder initializeDiscriminator b) =
      some ⟨name, symbol, uri, fee, creators, collection, uses⟩ ∧
    decodeInstructionData updateFieldDiscriminator decodeUpdateFieldData
        (createUpdateFieldInstruction fa).data =
      some (getFieldConfig fa.field, fa.value) ∧
    decodeInstructionData removeKeyDiscriminator decodeRemoveKeyData
        (createRemoveKeyInstruction ra).data = some (ra.idempotent, ra.key) ∧
    decodeInstructionData updateAuthorityDiscriminator decodeUpdateAuthorityData
        ui.data = some (ua.newAuthority.getD systemProgramId) ∧
    decodeInstructionData emitDiscriminator decodeEmitData
        (createEmitInstruction ea).data = some (ea.start, ea.endRange) := by
  refine ⟨?_, ?_, ?_, ?_, ?_⟩
  · have hd := decodeInitializeData_encode name symbol uri fee creators collection
      uses b [] hn hsy hur hfee hcrw hcolw husw hb
    rw [List.append_nil] at hd
    exact decodeInstructionData_encode _ _ _ _ rfl hd
  · have hd := decodeUpdateFieldData_encode (getFieldConfig fa.field) fa.value []
      (fun s hs => hfk s (getFieldConfig_key_inv _ _ hs)) hfv
    rw [List.append_nil] at hd
    exact decodeInstructionData_encode _ _ _ _ rfl hd
  · have hd := decodeRemoveKeyData_encode ra.idempotent ra.key [] hrk
    rw [List.append_nil] at hd
    exact decodeInstructionData_encode _ _ _ _ rfl hd
  · simp only [createUpdateAuthorityInstruction] at hui
    rw [show getPublicKeyEncoder (ua.newAuthority.getD systemProgramId) =
        Except.ok (ua.newAuthority.getD systemProgramId) from
        by unfold getPublicKeyEncoder; rw [if_pos hua32], except_map_ok] at hui
    have h := Except.ok.inj hui
    subst h
    have hd : decodeUpdateAuthorityData (ua.newAuthority.getD systemProgramId) =
        some (ua.newAuthority.getD systemProgramId, []) := by
      unfold decodeUpdateAuthorityData decodePublicKey
      rw [← hua32]
      simp [readN]
    exact decodeInstructionData_encode _ _ _ _ rfl hd
  · have hd := decodeEmitData_encode ea.start ea.endRange [] hes hee
    rw [List.append_nil] at hd
    exact decodeInstructionData_encode _ _ _ _ rfl hd

theorem exceptCat_error_of_bad (cs : List Creator) (c : Creator)
    (hc : c ∈ cs) (hbad : c.address.length ≠ 32) :
    exceptCat creatorEncoder cs = Except.error publicKeyLengthError := by
  induction cs with
  | nil => cases hc
  | cons x xs ih =>
    by_cases hx : x.address.length = 32
    · rcases List.mem_cons.mp hc with heq | hmem
      · exact absurd hx (heq ▸ hbad)
      · simp only [exceptCat]
        rw [creatorEncoder_ok x hx, except_bind_ok, ih hmem, except_bind_error]
    · simp only [exceptCat]
      rw [show creatorEncoder x = Except.error publicKeyLengthError from by
          unfold creatorEncoder getPublicKeyEncoder
          rw [if_neg hx, except_map_error],
        except_bind_error]

/-- C8: a public key encodes as exactly its 32 raw bytes with no length
prefix; a key whose byte form is not exactly 32 bytes makes encoding fail
synchronously with an EncodingError and no instruction is produced. -/
theorem claim_C8_public_key_encoding (pk1 pk2 : Bytes)
    (h1 : pk1.length = 32) (h2 : pk2.length ≠ 32)
    (ua : UpdateAuthorityInstructionArgs)
    (hua : (ua.newAuthority.getD systemProgramId).length ≠ 32)
    (ia : InitializeInstructionArgs) (cs : List Creator) (c : Creator)
    (hcs : ia.creators = some cs) (hc : c ∈ cs)
    (hcbad : c.address.length ≠ 32) :
    getPublicKeyEncoder pk1 = Except.ok pk1 ∧ pk1.length = 32 ∧
    getPublicKeyEncoder pk2 = Except.error publicKeyLengthError ∧
    createUpdateAuthorityInstruction ua = Except.error publicKeyLengthError ∧
    createInitializeInstruction ia = Except.error publicKeyLengthError := by
  refine ⟨?_, h1, ?_, ?_, ?_⟩
  · unfold getPublicKeyEncoder
    rw [if_pos h1]
  · unfold getPublicKeyEncoder
    rw [if_neg h2]
  · simp only [createUpdateAuthorityInstruction]
    rw [show getPublicKeyEncoder (ua.newAuthority.getD systemProgramId) =
        Except.error publicKeyLengthError from
        by unfold getPublicKeyEncoder; rw [if_neg hua], except_map_error]
  · have hcat := exceptCat_error_of_bad cs c hc hcbad
    have hlen : cs.length > 0 := List.length_pos.mpr (List.ne_nil_of_mem hc)
    have henc : initializeDataEncoder ia.name ia.symbol ia.uri
        (ia.sellerFeeBasisPoints.getD 0) (some cs) (ia.collection.getD none)
        (ia.uses.getD none) = Except.error publicKeyLengthError := by
      unfold initializeDataEncoder
      rw [show optionEncoderE (arrayEncoderE creatorEncoder) (some cs) =
          Except.error publicKeyLengthError from by
          simp only [optionEncoderE, arrayEncoderE]
          rw [hcat, except_map_error, except_map_error],
        except_bind_error]
    simp only [createInitializeInstruction, hcs, Option.getD_some]
    rw [if_pos hlen, henc, except_map_error]

/-- C9: omitting sellerFeeBasisPoints, collection, or uses is byte-identical
to supplying 0, null, and null; the payload encodes the seller fee as u16
value 0 and collection and uses as single absent-flag bytes. -/
theorem claim_C9_initialize_defaults (args : InitializeInstructionArgs)
    (i : TransactionInstruction) (cb : Bytes)
    (hcrb : optionEncoderE (arrayEncoderE creatorEncoder)
      (if (args.creators.getD []).length > 0 then some (args.creators.getD [])
       else none) = Except.ok cb)
    (hi : createInitializeInstruction
      { args with sellerFeeBasisPoints := none, collection := none, uses := none } =
      Except.ok i) :
    createInitializeInstruction
        { args with sellerFeeBasisPoints := none, collection := none, uses := none } =
      createInitializeInstruction
        { args with sellerFeeBasisPoints := some 0, collection := some none, uses := some none } ∧
    i.data = getInstructionEncoder initializeDiscriminator
      (getStringEncoder args.name ++ getStringEncoder args.symbol ++
       getStringEncoder args.uri ++ getU16Encoder 0 ++ cb ++ [0] ++ [0]) := by
  have hpay : initializeDataEncoder args.name args.symbol args.uri 0
      (if (args.creators.getD []).length > 0 then some (args.creators.getD [])
       else none) none none = Except.ok
      (getStringEncoder args.name ++ getStringEncoder args.symbol ++
       getStringEncoder args.uri ++ getU16Encoder 0 ++ cb ++ [0] ++ [0]) := by
    unfold initializeDataEncoder
    rw [hcrb, except_bind_ok,
      show optionEncoderE collectionEncoder (none : Option Collection) =
        Except.ok [0] from rfl,
      except_bind_ok, except_pure_eq]
    rfl
  refine ⟨rfl, ?_⟩
  simp only [createInitializeInstruction, Option.getD_none, Option.getD_some] at hi
  rw [hpay, except_map_ok] at hi
  have h := Except.ok.inj hi
  subst h
  rfl

/-! Concrete example inputs used to evaluate the definitions. -/

/-- A 32-byte example key filled with byte `n`. -/
def exampleKey (n : Nat) : Bytes := List.replicate 32 n

/-- Example Initialize arguments with all optional parameters omitted. -/
def exampleInitArgs : InitializeInstructionArgs :=
  { metadata := exampleKey 1, mint := exampleKey 2, mintAuthority := exampleKey 3,
    name := "N", programId := exampleKey 4, symbol := "S",
    updateAuthority := exampleKey 5, uri := "U" }

/-- The struct payload produced for `exampleInitArgs`. -/
def exampleInitPayload : Bytes :=
  getStringEncoder "N" ++ getStringEncoder "S" ++ getStringEncoder "U" ++
  getU16Encoder 0 ++ [0] ++ [0] ++ [0]

/-- The instruction produced for `exampleInitArgs`. -/
def exampleInitInstruction : TransactionInstruction :=
  { programId := exampleKey 4,
    keys := [
      { isSigner := false, isWritable := true, pubkey := exampleKey 1 },
      { isSigner := false, isWritable := false, pubkey := exampleKey 5 },
      { isSigner := false, isWritable := false, pubkey := exampleKey 2 },
      { isSigner := true, isWritable := false, pubkey := exampleKey 3 }],
    data := getInstructionEncoder initializeDiscriminator exampleInitPayload }

/-- Example UpdateAuthority arguments with a new authority supplied. -/
def exampleUpdateAuthorityArgs : UpdateAuthorityInstructionArgs :=
  { programId := exampleKey 4, metadata := exampleKey 1,
    oldAuthority := exampleKey 5, newAuthority := some (exampleKey 6) }

/-- The instruction produced for `exampleUpdateAuthorityArgs`. -/
def exampleUpdateAuthorityInstruction : TransactionInstruction :=
  { programId := exampleKey 4,
    keys := [
      { isSigner := false, isWritable := true, pubkey := exampleKey 1 },
      { isSigner := true, isWritable := false, pubkey := exampleKey 5 }],
    data := getInstructionEncoder updateAuthorityDiscriminator (exampleKey 6) }

/-- Example UpdateField arguments using a well-known field variant. -/
def exampleUpdateFieldArgs : UpdateFieldInstruction :=
  { programId := exampleKey 4, metadata := exampleKey 1,
    updateAuthority := exampleKey 5, field := Sum.inl Field.Name, value := "V" }

/-- Example RemoveKey arguments. -/
def exampleRemoveKeyArgs : RemoveKeyInstructionArgs :=
  { programId := exampleKey 4, metadata := exampleKey 1,
    updateAuthority := exampleKey 5, key := "K", idempotent := false }

/-- Example Emit arguments with start present and end absent. -/
def exampleEmitArgs : EmitInstructionArgs :=
  { programId := exampleKey 4, metadata := exampleKey 1, start := some 5,
    endRange := none }

/-- Witness for C1 at the concrete example inputs. -/
theorem claim_C1_discriminator_framing_witness :
    (exampleInitInstruction.data.take 8 = initializeDiscriminator ∧
     exampleInitInstruction.data.drop 8 = exampleInitPayload) ∧
    ((createUpdateFieldInstruction exampleUpdateFieldArgs).data.take 8 =
       updateFieldDiscriminator ∧
     (createUpdateFieldInstruction exampleUpdateFieldArgs).data.drop 8 =
       fieldEncoder (getFieldConfig exampleUpdateFieldArgs.field) ++
       getStringEncoder exampleUpdateFieldArgs.value) ∧
    ((createRemoveKeyInstruction exampleRemoveKeyArgs).data.take 8 =
       removeKeyDiscriminator ∧
     (createRemoveKeyInstruction exampleRemoveKeyArgs).data.drop 8 =
       getBooleanEncoder exampleRemoveKeyArgs.idempotent ++
       getStringEncoder exampleRemoveKeyArgs.key) ∧
    (exampleUpdateAuthorityInstruction.data.take 8 = updateAuthorityDiscriminator ∧
     exampleUpdateAuthorityInstruction.data.drop 8 = exampleKey 6) ∧
    ((createEmitInstruction exampleEmitArgs).data.take 8 = emitDiscriminator ∧
     (createEmitInstruction exampleEmitArgs).data.drop 8 =
       getOptionEncoder getU64Encoder exampleEmitArgs.start ++
       getOptionEncoder getU64Encoder exampleEmitArgs.endRange) :=
  claim_C1_discriminator_framing exampleInitArgs exampleInitInstruction
    exampleInitPayload rfl rfl
    exampleUpdateAuthorityArgs exampleUpdateAuthorityInstruction (exampleKey 6)
    rfl rfl
    exampleUpdateFieldArgs exampleRemoveKeyArgs exampleEmitArgs

/-- Example creators: two verified, one unverified, with 32-byte addresses. -/
def exampleCreators : List Creator :=
  [{ address := exampleKey 7, verified := true, share := 60 },
   { address := exampleKey 8, verified := false, share := 30 },
   { address := exampleKey 9, verified := true, share := 10 }]

/-- Example Initialize arguments with every optional parameter supplied. -/
def exampleInitArgsFull : InitializeInstructionArgs :=
  { metadata := exampleKey 1, mint := exampleKey 2, mintAuthority := exampleKey 3,
    name := "N", programId := exampleKey 4, symbol := "S",
    updateAuthority := exampleKey 5, uri := "U",
    creators := some exampleCreators, sellerFeeBasisPoints := some 500,
    collection := some (some { key := exampleKey 10, verified := true }),
    uses := some (some { use_method := 1, remaining := 2, total := 3 }) }

/-- The struct payload produced for `exampleInitArgsFull`. -/
def exampleInitPayloadFull : Bytes :=
  getStringEncoder "N" ++ getStringEncoder "S" ++ getStringEncoder "U" ++
  getU16Encoder 500 ++
  (1 :: (getU32Encoder 3 ++
    (exampleKey 7 ++ getBooleanEncoder true ++ getU8Encoder 60) ++
    (exampleKey 8 ++ getBooleanEncoder false ++ getU8Encoder 30) ++
    (exampleKey 9 ++ getBooleanEncoder true ++ getU8Encoder 10))) ++
  (1 :: (exampleKey 10 ++ getBooleanEncoder true)) ++
  (1 :: usesEncoder { use_method := 1, remaining := 2, total := 3 })

/-- The instruction produced for `exampleInitArgsFull`. -/
def exampleInitInstructionFull : TransactionInstruction :=
  { programId := exampleKey 4,
    keys := [
      { isSigner := false, isWritable := true, pubkey := exampleKey 1 },
      { isSigner := false, isWritable := false, pubkey := exampleKey 5 },
      { isSigner := false, isWritable := false, pubkey := exampleKey 2 },
      { isSigner := true, isWritable := false, pubkey := exampleKey 3 },
      { isSigner := true, isWritable := false, pubkey := exampleKey 7 },
      { isSigner := true, isWritable := false, pubkey := exampleKey 9 },
      { isSigner := true, isWritable := false, pubkey := exampleKey 10 }],
    data := getInstructionEncoder initializeDiscriminator exampleInitPayloadFull }

/-- Example UpdateAuthority arguments with no new authority. -/
def exampleUpdateAuthorityNoneArgs : UpdateAuthorityInstructionArgs :=
  { programId := exampleKey 4, metadata := exampleKey 1,
    oldAuthority := exampleKey 5, newAuthority := none }

/-- The instruction produced for `exampleUpdateAuthorityNoneArgs`. -/
def exampleUpdateAuthorityNoneInstruction : TransactionInstruction :=
  { programId := exampleKey 4,
    keys := [
      { isSigner := false, isWritable := true, pubkey := exampleKey 1 },
      { isSigner := true, isWritable := false, pubkey := exampleKey 5 }],
    data := getInstructionEncoder updateAuthorityDiscriminator systemProgramId }

/-- Example UpdateAuthority arguments with a malformed new authority. -/
def exampleBadUpdateAuthorityArgs : UpdateAuthorityInstructionArgs :=
  { programId := exampleKey 4, metadata := exampleKey 1,
    oldAuthority := exampleKey 5, newAuthority := some [0] }

/-- A creator whose address is not 32 bytes. -/
def exampleBadCreator : Creator := { address := [0], verified := true, share := 1 }

/-- Example Initialize arguments holding a malformed creator address. -/
def exampleBadInitArgs : InitializeInstructionArgs :=
  { exampleInitArgs with creators := some [exampleBadCreator] }

/-- Witness for C2 at the concrete example inputs. -/
theorem claim_C2_empty_creators_normalized_witness :
    createInitializeInstruction { exampleInitArgs with creators := some [] } =
      createInitializeInstruction { exampleInitArgs with creators := none } ∧
    optionEncoderE (arrayEncoderE creatorEncoder) none = Except.ok [0] ∧
    exampleInitInstruction.data = getInstructionEncoder initializeDiscriminator
      (getStringEncoder exampleInitArgs.name ++
       getStringEncoder exampleInitArgs.symbol ++
       getStringEncoder exampleInitArgs.uri ++
       getU16Encoder (exampleInitArgs.sellerFeeBasisPoints.getD 0) ++ [0] ++ [0] ++
       getOptionEncoder usesEncoder (exampleInitArgs.uses.getD none)) :=
  claim_C2_empty_creators_normalized exampleInitArgs exampleInitInstruction [0]
    rfl rfl

/-- Witness for C3 at the concrete example inputs. -/
theorem claim_C3_initialize_account_list_witness :
    exampleInitInstructionFull.keys =
      [{ isSigner := false, isWritable := true,
         pubkey := exampleInitArgsFull.metadata },
       { isSigner := false, isWritable := false,
         pubkey := exampleInitArgsFull.updateAuthority },
       { isSigner := false, isWritable := false,
         pubkey := exampleInitArgsFull.mint },
       { isSigner := true, isWritable := false,
         pubkey := exampleInitArgsFull.mintAuthority }] ++
      ((exampleInitArgsFull.creators.getD []).filter fun c => c.verified).map
        (fun c =>
          ({ isSigner := true, isWritable := false, pubkey := c.address } :
            AccountMeta)) ++
      (match exampleInitArgsFull.collection.getD none with
       | some col =>
         if col.verified then
           [({ isSigner := true, isWritable := false, pubkey := col.key } :
             AccountMeta)]
         else []
       | none => []) :=
  claim_C3_initialize_account_list exampleInitArgsFull exampleInitInstructionFull
    rfl

/-- Witness for C4 at the concrete example inputs. -/
theorem claim_C4_update_authority_sentinel_witness :
    systemProgramId = List.replicate 32 0 ∧ systemProgramId.length = 32 ∧
    exampleUpdateAuthorityNoneInstruction.data =
      getInstructionEncoder updateAuthorityDiscriminator systemProgramId ∧
    exampleUpdateAuthorityNoneInstruction.data.drop 8 = systemProgramId ∧
    exampleUpdateAuthorityInstruction.data =
      getInstructionEncoder updateAuthorityDiscriminator (exampleKey 6) ∧
    exampleUpdateAuthorityInstruction.data.drop 8 = exampleKey 6 :=
  claim_C4_update_authority_sentinel exampleUpdateAuthorityNoneArgs
    exampleUpdateAuthorityNoneInstruction rfl rfl
    exampleUpdateAuthorityArgs exampleUpdateAuthorityInstruction (exampleKey 6)
    rfl (by decide) rfl

/-- Witness for C7 at the concrete example inputs. -/
theorem claim_C7_roundtrip_witness :
    decodeInstructionData initializeDiscriminator decodeInitializeData
        (getInstructionEncoder initializeDiscriminator exampleInitPayload) =
      some ⟨"N", "S", "U", 0, none, none, none⟩ ∧
    decodeInstructionData updateFieldDiscriminator decodeUpdateFieldData
        (createUpdateFieldInstruction exampleUpdateFieldArgs).data =
      some (getFieldConfig exampleUpdateFieldArgs.field,
        exampleUpdateFieldArgs.value) ∧
    decodeInstructionData removeKeyDiscriminator decodeRemoveKeyData
        (createRemoveKeyInstruction exampleRemoveKeyArgs).data =
      some (exampleRemoveKeyArgs.idempotent, exampleRemoveKeyArgs.key) ∧
    decodeInstructionData updateAuthorityDiscriminator decodeUpdateAuthorityData
        exampleUpdateAuthorityInstruction.data =
      some (exampleUpdateAuthorityArgs.newAuthority.getD systemProgramId) ∧
    decodeInstructionData emitDiscriminator decodeEmitData
        (createEmitInstruction exampleEmitArgs).data =
      some (exampleEmitArgs.start, exampleEmitArgs.endRange) :=
  claim_C7_roundtrip "N" "S" "U" 0 none none none exampleInitPayload
    (by decide) (by decide) (by decide) (by decide)
    (fun cs h => Option.noConfusion h)
    (fun col h => Option.noConfusion h)
    (fun u h => Option.noConfusion h)
    rfl
    exampleUpdateFieldArgs
    (fun s h => by simp [exampleUpdateFieldArgs] at h)
    (by decide)
    exampleRemoveKeyArgs (by decide)
    exampleUpdateAuthorityArgs exampleUpdateAuthorityInstruction (by decide) rfl
    exampleEmitArgs
    (by intro v h; simp [exampleEmitArgs] at h; omega)
    (fun v h => by simp [exampleEmitArgs] at h)

/-- Witness for C8 at the concrete example inputs. -/
theorem claim_C8_public_key_encoding_witness :
    getPublicKeyEncoder (exampleKey 1) = Except.ok (exampleKey 1) ∧
    (exampleKey 1).length = 32 ∧
    getPublicKeyEncoder [0] = Except.error publicKeyLengthError ∧
    createUpdateAuthorityInstruction exampleBadUpdateAuthorityArgs =
      Except.error publicKeyLengthError ∧
    createInitializeInstruction exampleBadInitArgs =
      Except.error publicKeyLengthError :=
  claim_C8_public_key_encoding (exampleKey 1) [0] (by decide) (by decide)
    exampleBadUpdateAuthorityArgs (by decide)
    exampleBadInitArgs [exampleBadCreator] exampleBadCreator rfl (by decide)
    (by decide)

/-- Witness for C9 at the concrete example inputs. -/
theorem claim_C9_initialize_defaults_witness :
    createInitializeInstruction
        { exampleInitArgs with sellerFeeBasisPoints := none, collection := none, uses := none } =
      createInitializeInstruction
        { exampleInitArgs with sellerFeeBasisPoints := some 0, collection := some none, uses := some none } ∧
    exampleInitInstruction.data = getInstructionEncoder initializeDiscriminator
      (getStringEncoder exampleInitArgs.name ++
       getStringEncoder exampleInitArgs.symbol ++
       getStringEncoder exampleInitArgs.uri ++ getU16Encoder 0 ++ [0] ++ [0] ++
       [0]) :=
  claim_C9_initialize_defaults exampleInitArgs exampleInitInstruction [0] rfl rfl

end SplTokenMetadata
